import Mathlib

/-!
Shallow embedding of `kernel_with_bootloader/src/writer.rs`: the
framebuffer text writer `FrameBufferWriter` with its cursor tracking,
character dispatch, and pixel blitting.  Machine bytes (`u8`) are
modelled as `Nat` values, the framebuffer `&mut [u8]` as a `List Nat`,
and a Rust panic as the `.error` branch of `Except`, whose payload is
the writer state at the moment of the panic.
-/

namespace Writer

/-- The pixel formats of `bootloader_api::info::PixelFormat` that the
writer matches on: `Rgb`, `Bgr`, `U8`, and the catch-all `Unknown`
variant (with its red/green/blue bit-position fields). -/
inductive PixelFormat where
  | Rgb : PixelFormat
  | Bgr : PixelFormat
  | U8 : PixelFormat
  | Unknown : Nat → Nat → Nat → PixelFormat
deriving DecidableEq

/-- The `[u8; 3]` text color array, indexed 0/1/2 as in the source. -/
structure Color3 where
  c0 : Nat
  c1 : Nat
  c2 : Nat
deriving DecidableEq

/-- `bootloader_api::info::FrameBufferInfo`: the framebuffer descriptor
(the `pixel_format` field is mutable state, see `write_pixel`). -/
structure FrameBufferInfo where
  width : Nat
  height : Nat
  stride : Nat
  bytes_per_pixel : Nat
  pixel_format : PixelFormat
deriving DecidableEq

/-- A rasterized character (`noto_sans_mono_bitmap::RasterizedChar`):
a row-major intensity grid plus its pixel width. -/
structure Raster where
  raster : List (List Nat)
  width : Nat

/-- Modelled from the spec: the glyph constants of the repository's
`constants.rs` module, which is not under `src/` (`CHAR_RASTER_WIDTH`,
`CHAR_RASTER_HEIGHT` — a fixed system-wide glyph geometry), and the
external bitmap-font lookup `get_char_raster` (a pure, total lookup with
backup-glyph fallback: resolution always succeeds). -/
structure FontCfg where
  charRasterWidth : Nat
  charRasterHeight : Nat
  font : Char → Raster

def LINE_SPACING : Nat := 2

def LETTER_SPACING : Nat := 0

def BORDER_PADDING : Nat := 1

/-- The writer state: framebuffer bytes, descriptor, cursor position and
current text color (`FrameBufferWriter` in the source). -/
structure FrameBufferWriter where
  framebuffer : List Nat
  info : FrameBufferInfo
  x_pos : Nat
  y_pos : Nat
  text_color : Color3
deriving DecidableEq

def set_text_color (s : FrameBufferWriter) (color : Color3) : FrameBufferWriter :=
  { s with text_color := color }

def carriage_return (s : FrameBufferWriter) : FrameBufferWriter :=
  { s with x_pos := BORDER_PADDING }

def newline (fc : FontCfg) (s : FrameBufferWriter) : FrameBufferWriter :=
  carriage_return { s with y_pos := s.y_pos + fc.charRasterHeight + LINE_SPACING }

/-- `clear`: reset the cursor to the border padding and zero-fill the
whole framebuffer (`self.framebuffer.fill(0)`). -/
def clear (s : FrameBufferWriter) : FrameBufferWriter :=
  { s with x_pos := BORDER_PADDING, y_pos := BORDER_PADDING,
           framebuffer := s.framebuffer.map fun _ => 0 }

/-- Construction (`FrameBufferWriter::new`): cursor at the border
padding, white text color, followed by an immediate `clear`. -/
def new (framebuffer : List Nat) (info : FrameBufferInfo) : FrameBufferWriter :=
  clear { framebuffer := framebuffer, info := info, x_pos := BORDER_PADDING,
          y_pos := BORDER_PADDING, text_color := ⟨255, 255, 255⟩ }

/-- Splice `bytes` into `fb` starting at byte offset `off`: the
`copy_from_slice` on the subslice `[off, off + bytes.length)`. -/
def writeBytes (fb : List Nat) (off : Nat) (bytes : List Nat) : List Nat :=
  fb.take off ++ bytes ++ fb.drop (off + bytes.length)

/-- The tail of `write_pixel` once the color bytes are chosen: slice the
framebuffer at `pixel_offset * bytes_per_pixel`, copy the first
`bytes_per_pixel` bytes of `color` in, then perform the volatile
read-back of the first written byte.  Out-of-range slicing or indexing
panics (`.error`), leaving the framebuffer in the state reached so far. -/
def blitColor (s : FrameBufferWriter) (pixel_offset : Nat) (color : List Nat) :
    Except FrameBufferWriter FrameBufferWriter :=
  if pixel_offset * s.info.bytes_per_pixel + s.info.bytes_per_pixel ≤ s.framebuffer.length ∧
      s.info.bytes_per_pixel ≤ 4 then
    if pixel_offset * s.info.bytes_per_pixel <
        (writeBytes s.framebuffer (pixel_offset * s.info.bytes_per_pixel)
          (color.take s.info.bytes_per_pixel)).length then
      Except.ok { s with framebuffer := (writeBytes s.framebuffer
                    (pixel_offset * s.info.bytes_per_pixel)
                    (color.take s.info.bytes_per_pixel)) }
    else
      Except.error { s with framebuffer := (writeBytes s.framebuffer
                       (pixel_offset * s.info.bytes_per_pixel)
                       (color.take s.info.bytes_per_pixel)) }
  else Except.error s

/-- `FrameBufferWriter::write_pixel`: skip zero intensity, otherwise
choose the color byte sequence by pixel format and blit it at
`(y * stride + x) * bytes_per_pixel`.  An unsupported format first
overwrites the stored format tag with `Rgb`, then panics. -/
def write_pixel (s : FrameBufferWriter) (x y intensity : Nat) :
    Except FrameBufferWriter FrameBufferWriter :=
  if intensity = 0 then Except.ok s
  else
    match s.info.pixel_format with
    | PixelFormat.Rgb =>
        blitColor s (y * s.info.stride + x)
          [s.text_color.c0, s.text_color.c1, s.text_color.c2, 0]
    | PixelFormat.Bgr =>
        blitColor s (y * s.info.stride + x)
          [s.text_color.c2, s.text_color.c1, s.text_color.c0, 0]
    | PixelFormat.U8 =>
        blitColor s (y * s.info.stride + x)
          [if 200 < intensity then 15 else 0, 0, 0, 0]
    | PixelFormat.Unknown _ _ _ =>
        Except.error { s with info := { s.info with pixel_format := PixelFormat.Rgb } }

/-- One raster row of `write_rendered_char`'s inner loop: blit the cells
of `row` at relative row `yi`, column index counting up from `xi`. -/
def blitCells : FrameBufferWriter → Nat → Nat → List Nat →
    Except FrameBufferWriter FrameBufferWriter
  | s, _, _, [] => Except.ok s
  | s, yi, xi, i :: rest =>
    match write_pixel s (s.x_pos + xi) (s.y_pos + yi) i with
    | Except.error e => Except.error e
    | Except.ok s1 => blitCells s1 yi (xi + 1) rest

/-- The outer loop of `write_rendered_char`: blit the raster rows,
row index counting up from `yi`. -/
def blitRows : FrameBufferWriter → Nat → List (List Nat) →
    Except FrameBufferWriter FrameBufferWriter
  | s, _, [] => Except.ok s
  | s, yi, row :: rest =>
    match blitCells s yi 0 row with
    | Except.error e => Except.error e
    | Except.ok s1 => blitRows s1 (yi + 1) rest

/-- `FrameBufferWriter::write_rendered_char`: blit every raster cell at
the cursor, then advance `x_pos` by the raster width plus the letter
spacing. -/
def write_rendered_char (s : FrameBufferWriter) (rendered_char : Raster) :
    Except FrameBufferWriter FrameBufferWriter :=
  match blitRows s 0 rendered_char.raster with
  | Except.error e => Except.error e
  | Except.ok s1 =>
      Except.ok { s1 with x_pos := s1.x_pos + rendered_char.width + LETTER_SPACING }

/-- `FrameBufferWriter::write_char`: dispatch on the character.  The
source matches, in order, the literals `'\n'`, `'c'`, `'\t'`, `'\r'`,
and a default arm that wraps, clears on vertical overflow and renders. -/
def write_char (fc : FontCfg) (s : FrameBufferWriter) (c : Char) :
    Except FrameBufferWriter FrameBufferWriter :=
  if c = '\n' then Except.ok (newline fc s)
  else if c = 'c' then Except.ok (set_text_color s ⟨0, 0, 255⟩)
  else if c = '\t' then
    let s1 : FrameBufferWriter := { s with x_pos := s.x_pos + fc.charRasterWidth * 4 }
    Except.ok (if s1.x_pos ≥ s1.info.width then newline fc s1 else s1)
  else if c = '\r' then Except.ok (carriage_return s)
  else
    let s1 := if s.x_pos + fc.charRasterWidth ≥ s.info.width then newline fc s else s
    let s2 := if s1.y_pos + fc.charRasterHeight + BORDER_PADDING ≥ s1.info.height
              then clear s1 else s1
    write_rendered_char s2 (fc.font c)

/-- Iterate `write_char` over a character sequence (the loop body of
`write_str`). -/
def writeChars (fc : FontCfg) : FrameBufferWriter → List Char →
    Except FrameBufferWriter FrameBufferWriter
  | s, [] => Except.ok s
  | s, c :: cs =>
    match write_char fc s c with
    | Except.error e => Except.error e
    | Except.ok s1 => writeChars fc s1 cs

/-- `core::fmt::Result`: `Ok(())` or `Err(fmt::Error)`. -/
inductive FmtResult where
  | ok : FmtResult
  | error : FmtResult
deriving DecidableEq

/-- The `core::fmt::Write` implementation: write every character of the
string in order, then return `Ok(())`. -/
def write_str (fc : FontCfg) (s : FrameBufferWriter) (cs : List Char) :
    Except FrameBufferWriter (FrameBufferWriter × FmtResult) :=
  match writeChars fc s cs with
  | Except.error e => Except.error e
  | Except.ok s1 => Except.ok (s1, FmtResult.ok)

/-! ### Concrete example configurations used by witnesses -/

/-- A font whose every glyph is a single zero-intensity cell of width 1
(zero intensity is skipped by the blitter, so no bounds conditions
arise). -/
def zeroFont : Char → Raster := fun _ => ⟨[[0]], 1⟩

def fcEx : FontCfg := ⟨1, 1, zeroFont⟩

def infoEx : FrameBufferInfo := ⟨10, 10, 10, 3, PixelFormat.Rgb⟩

def sEx : FrameBufferWriter := ⟨[], infoEx, 1, 1, ⟨255, 255, 255⟩⟩

def infoU : FrameBufferInfo := ⟨10, 10, 10, 3, PixelFormat.Unknown 16 8 0⟩

def sU : FrameBufferWriter := ⟨[1, 2, 3], infoU, 1, 1, ⟨255, 255, 255⟩⟩

def sC2 : FrameBufferWriter := ⟨[7], ⟨1, 1, 1, 1, PixelFormat.U8⟩, 1, 1, ⟨10, 20, 30⟩⟩

def sC5 : FrameBufferWriter := ⟨[9, 9, 9, 9, 9, 9], ⟨2, 1, 2, 3, PixelFormat.Rgb⟩, 1, 1, ⟨10, 20, 30⟩⟩

def sC3 : FrameBufferWriter := ⟨[5, 5], ⟨10, 3, 10, 3, PixelFormat.Rgb⟩, 1, 1, ⟨255, 255, 255⟩⟩

def tC8 : FrameBufferWriter := ⟨[], infoEx, 3, 1, ⟨255, 255, 255⟩⟩

def tC7 : FrameBufferWriter := ⟨[], infoEx, 9, 1, ⟨255, 255, 255⟩⟩

/-! ### Claim theorems -/

/-- C1: writing the single character `c` through the write interface
forcibly switches the active text color to the fixed blue `[0, 0, 255]`,
renders no glyph, and leaves the cursor position and every framebuffer
byte unchanged (the resulting state differs from `s` only in
`text_color`). -/
theorem write_char_c_sets_blue (fc : FontCfg) (s : FrameBufferWriter) :
    write_char fc s 'c' = Except.ok { s with text_color := ⟨0, 0, 255⟩ } ∧
    ({ s with text_color := (⟨0, 0, 255⟩ : Color3) } : FrameBufferWriter).x_pos = s.x_pos ∧
    ({ s with text_color := (⟨0, 0, 255⟩ : Color3) } : FrameBufferWriter).y_pos = s.y_pos ∧
    ({ s with text_color := (⟨0, 0, 255⟩ : Color3) } : FrameBufferWriter).framebuffer =
      s.framebuffer := by
  refine ⟨?_, rfl, rfl, rfl⟩
  unfold write_char
  rw [if_neg (by decide), if_pos rfl]
  rfl

/-- C6: a raster cell of intensity 0 is skipped by the blitter: the
whole writer state, in particular every framebuffer byte, is left
unchanged (transparent background). -/
theorem write_pixel_zero_intensity (s : FrameBufferWriter) (x y : Nat) :
    write_pixel s x y 0 = Except.ok s := by
  unfold write_pixel
  rw [if_pos rfl]

/-- C9: writing `'\n'` always resets the cursor x to the border padding
and increases y by exactly `charRasterHeight + LINE_SPACING`, for every
prior cursor position; writing `'\r'` resets x to the border padding and
leaves y (and everything else) unchanged. -/
theorem write_char_newline_cr (fc : FontCfg) (s : FrameBufferWriter) :
    write_char fc s '\n' =
      Except.ok
        { s with
          x_pos := BORDER_PADDING,
          y_pos := s.y_pos + fc.charRasterHeight + LINE_SPACING } ∧
    write_char fc s '\r' = Except.ok { s with x_pos := BORDER_PADDING } := by
  constructor
  · unfold write_char
    rw [if_pos rfl]
    rfl
  · unfold write_char
    rw [if_neg (by decide), if_neg (by decide), if_neg (by decide), if_pos rfl]
    rfl

/-- C10: whenever `write_str` returns (does not panic), it returns
`Ok(())`: the string-writing interface never reports failure. -/
theorem write_str_ok (fc : FontCfg) (s : FrameBufferWriter) (cs : List Char)
    (p : FrameBufferWriter × FmtResult) (h : write_str fc s cs = Except.ok p) :
    p.2 = FmtResult.ok := by
  unfold write_str at h
  cases hw : writeChars fc s cs with
  | error e =>
    rw [hw] at h
    exact Except.noConfusion h
  | ok s1 =>
    rw [hw] at h
    injection h with h2
    rw [← h2]

/-- Witness for C10 at a concrete input. -/
theorem write_str_ok_witness :
    (⟨⟨[], infoEx, 2, 1, ⟨255, 255, 255⟩⟩, FmtResult.ok⟩ :
      FrameBufferWriter × FmtResult).2 = FmtResult.ok :=
  write_str_ok fcEx sEx ['a'] ⟨⟨[], infoEx, 2, 1, ⟨255, 255, 255⟩⟩, FmtResult.ok⟩ rfl

/-- C4: on an unsupported pixel format, blitting a nonzero-intensity
pixel panics; the stored pixel-format tag is overwritten with `Rgb`
before the halt, and no framebuffer byte is modified. -/
theorem write_pixel_unsupported (s : FrameBufferWriter) (x y i r g b : Nat)
    (hfmt : s.info.pixel_format = PixelFormat.Unknown r g b) (hi : i ≠ 0) :
    write_pixel s x y i =
      Except.error { s with info := { s.info with pixel_format := PixelFormat.Rgb } } ∧
    ({ s with info := { s.info with pixel_format := PixelFormat.Rgb } } :
      FrameBufferWriter).framebuffer = s.framebuffer := by
  refine ⟨?_, rfl⟩
  unfold write_pixel
  rw [if_neg hi, hfmt]

/-- Witness for C4 at a concrete input. -/
theorem write_pixel_unsupported_witness :
    write_pixel sU 0 0 255 =
      Except.error { sU with info := { sU.info with pixel_format := PixelFormat.Rgb } } ∧
    ({ sU with info := { sU.info with pixel_format := PixelFormat.Rgb } } :
      FrameBufferWriter).framebuffer = sU.framebuffer :=
  write_pixel_unsupported sU 0 0 255 16 8 0 rfl (by decide)

theorem writeBytes_length (fb : List Nat) (off : Nat) (b : List Nat)
    (h : off + b.length ≤ fb.length) : (writeBytes fb off b).length = fb.length := by
  simp only [writeBytes, List.length_append, List.length_take, List.length_drop]
  omega

/-- `blitColor` succeeds and splices the first `bytes_per_pixel` color
bytes at the computed byte offset whenever the write stays in bounds. -/
theorem blitColor_ok_eq (s : FrameBufferWriter) (p : Nat) (col : List Nat)
    (hb : p * s.info.bytes_per_pixel + s.info.bytes_per_pixel ≤ s.framebuffer.length)
    (h4 : s.info.bytes_per_pixel ≤ 4) (h0 : 0 < s.info.bytes_per_pixel) :
    blitColor s p col =
      Except.ok { s with framebuffer := (writeBytes s.framebuffer
        (p * s.info.bytes_per_pixel) (col.take s.info.bytes_per_pixel)) } := by
  unfold blitColor
  rw [if_pos ⟨hb, h4⟩]
  have h1 : p * s.info.bytes_per_pixel + (col.take s.info.bytes_per_pixel).length ≤
      s.framebuffer.length := by
    simp only [List.length_take]
    omega
  rw [if_pos (by rw [writeBytes_length _ _ _ h1]; omega)]

/-- Counterexample for C2 as stated: in the single-channel format, a
pixel of intensity 255 (above the threshold 200) writes the byte
`0xf = 15`, not the maximum channel value 255. -/
theorem u8_writes_15_not_max :
    write_pixel sC2 0 0 255 = Except.ok { sC2 with framebuffer := [15] } ∧
    write_pixel sC2 0 0 255 ≠ Except.ok { sC2 with framebuffer := [255] } :=
  ⟨rfl, fun h =>
    absurd (congrArg FrameBufferWriter.framebuffer (Except.ok.inj h)) (by decide)⟩

/-- In the single-channel `U8` format an in-bounds nonzero-intensity
pixel writes the first `bytes_per_pixel` bytes of
`[if 200 < i then 15 else 0, 0, 0, 0]`. -/
theorem write_pixel_u8_eq (s : FrameBufferWriter) (x y i : Nat)
    (hfmt : s.info.pixel_format = PixelFormat.U8) (hi : i ≠ 0)
    (h4 : s.info.bytes_per_pixel ≤ 4) (h0 : 0 < s.info.bytes_per_pixel)
    (hb : (y * s.info.stride + x) * s.info.bytes_per_pixel + s.info.bytes_per_pixel ≤
      s.framebuffer.length) :
    write_pixel s x y i =
      Except.ok { s with framebuffer := (writeBytes s.framebuffer
        ((y * s.info.stride + x) * s.info.bytes_per_pixel)
        (List.take s.info.bytes_per_pixel [if 200 < i then 15 else 0, 0, 0, 0])) } := by
  unfold write_pixel
  rw [if_neg hi, hfmt]
  exact blitColor_ok_eq s _ _ hb h4 h0

/-- C2 (amended): for the single-channel format, a nonzero-intensity
pixel writes `0xf` (15) into the first channel byte when the intensity
exceeds the threshold 200 and 0 otherwise; the current text color has no
effect on the bytes written (the same bytes result for any
`text_color`). -/
theorem write_pixel_u8_gray (s : FrameBufferWriter) (x y i : Nat) (tc : Color3)
    (hfmt : s.info.pixel_format = PixelFormat.U8) (hi : i ≠ 0)
    (h4 : s.info.bytes_per_pixel ≤ 4) (h0 : 0 < s.info.bytes_per_pixel)
    (hb : (y * s.info.stride + x) * s.info.bytes_per_pixel + s.info.bytes_per_pixel ≤
      s.framebuffer.length) :
    write_pixel s x y i =
      Except.ok { s with framebuffer := (writeBytes s.framebuffer
        ((y * s.info.stride + x) * s.info.bytes_per_pixel)
        (List.take s.info.bytes_per_pixel [if 200 < i then 15 else 0, 0, 0, 0])) } ∧
    write_pixel { s with text_color := tc } x y i =
      Except.ok { s with
        text_color := tc,
        framebuffer := (writeBytes s.framebuffer
          ((y * s.info.stride + x) * s.info.bytes_per_pixel)
          (List.take s.info.bytes_per_pixel [if 200 < i then 15 else 0, 0, 0, 0])) } :=
  ⟨write_pixel_u8_eq s x y i hfmt hi h4 h0 hb,
   write_pixel_u8_eq { s with text_color := tc } x y i hfmt hi h4 h0 hb⟩

/-- Witness for C2 (amended) at a concrete input. -/
theorem write_pixel_u8_gray_witness :
    (write_pixel sC2 0 0 201 =
      Except.ok { sC2 with framebuffer := (writeBytes sC2.framebuffer
        ((0 * sC2.info.stride + 0) * sC2.info.bytes_per_pixel)
        (List.take sC2.info.bytes_per_pixel [if 200 < 201 then 15 else 0, 0, 0, 0])) }) ∧
    (write_pixel { sC2 with text_color := ⟨1, 2, 3⟩ } 0 0 201 =
      Except.ok { sC2 with
        text_color := (⟨1, 2, 3⟩ : Color3),
        framebuffer := (writeBytes sC2.framebuffer
          ((0 * sC2.info.stride + 0) * sC2.info.bytes_per_pixel)
          (List.take sC2.info.bytes_per_pixel [if 200 < 201 then 15 else 0, 0, 0, 0])) }) :=
  write_pixel_u8_gray sC2 0 0 201 ⟨1, 2, 3⟩ rfl (by decide) (by decide) (by decide) (by decide)

/-- C5: with `bytes_per_pixel = 3` and text color `(10, 20, 30)`, a
nonzero-intensity pixel at `(x, y)` writes exactly `[10, 20, 30]` under
`Rgb` and exactly `[30, 20, 10]` under `Bgr`, at byte offset
`(y * stride + x) * bytes_per_pixel`. -/
theorem write_pixel_rgb_bgr (s : FrameBufferWriter) (x y i : Nat)
    (hbpp : s.info.bytes_per_pixel = 3) (hcol : s.text_color = ⟨10, 20, 30⟩) (hi : i ≠ 0)
    (hbound : (y * s.info.stride + x) * 3 + 3 ≤ s.framebuffer.length) :
    (s.info.pixel_format = PixelFormat.Rgb →
      write_pixel s x y i = Except.ok { s with framebuffer := (writeBytes s.framebuffer
        ((y * s.info.stride + x) * 3) [10, 20, 30]) }) ∧
    (s.info.pixel_format = PixelFormat.Bgr →
      write_pixel s x y i = Except.ok { s with framebuffer := (writeBytes s.framebuffer
        ((y * s.info.stride + x) * 3) [30, 20, 10]) }) := by
  constructor
  · intro hfmt
    unfold write_pixel
    rw [if_neg hi, hfmt]
    show blitColor s (y * s.info.stride + x)
      [s.text_color.c0, s.text_color.c1, s.text_color.c2, 0] = _
    rw [hcol]
    rw [blitColor_ok_eq s _ _ (by rw [hbpp]; exact hbound) (by rw [hbpp]; omega)
      (by rw [hbpp]; omega), hbpp, hcol]
    rfl
  · intro hfmt
    unfold write_pixel
    rw [if_neg hi, hfmt]
    show blitColor s (y * s.info.stride + x)
      [s.text_color.c2, s.text_color.c1, s.text_color.c0, 0] = _
    rw [hcol]
    rw [blitColor_ok_eq s _ _ (by rw [hbpp]; exact hbound) (by rw [hbpp]; omega)
      (by rw [hbpp]; omega), hbpp, hcol]
    rfl

/-- Witness for C5 at a concrete input. -/
theorem write_pixel_rgb_bgr_witness :
    write_pixel sC5 1 0 255 = Except.ok { sC5 with framebuffer := (writeBytes sC5.framebuffer
      ((0 * sC5.info.stride + 1) * 3) [10, 20, 30]) } :=
  (write_pixel_rgb_bgr sC5 1 0 255 rfl rfl (by decide) (by decide)).1 rfl

/-! ### Cursor preservation through the blitter -/

theorem blitColor_ok_fields (s : FrameBufferWriter) (p : Nat) (col : List Nat)
    (s' : FrameBufferWriter) (h : blitColor s p col = Except.ok s') :
    s'.x_pos = s.x_pos ∧ s'.y_pos = s.y_pos ∧ s'.info = s.info ∧
      s'.text_color = s.text_color := by
  unfold blitColor at h
  split at h
  · split at h
    · injection h with h3
      subst h3
      exact ⟨rfl, rfl, rfl, rfl⟩
    · exact Except.noConfusion h
  · exact Except.noConfusion h

theorem write_pixel_ok_fields (s : FrameBufferWriter) (x y i : Nat)
    (s' : FrameBufferWriter) (h : write_pixel s x y i = Except.ok s') :
    s'.x_pos = s.x_pos ∧ s'.y_pos = s.y_pos ∧ s'.info = s.info ∧
      s'.text_color = s.text_color := by
  unfold write_pixel at h
  split at h
  · injection h with h3
    subst h3
    exact ⟨rfl, rfl, rfl, rfl⟩
  · split at h
    · exact blitColor_ok_fields _ _ _ _ h
    · exact blitColor_ok_fields _ _ _ _ h
    · exact blitColor_ok_fields _ _ _ _ h
    · exact Except.noConfusion h

theorem blitCells_ok_fields : ∀ (cells : List Nat) (s : FrameBufferWriter) (yi xi : Nat)
    (s' : FrameBufferWriter), blitCells s yi xi cells = Except.ok s' →
    s'.x_pos = s.x_pos ∧ s'.y_pos = s.y_pos ∧ s'.info = s.info ∧
      s'.text_color = s.text_color
  | [], s, yi, xi, s', h => by
    injection h with h3
    subst h3
    exact ⟨rfl, rfl, rfl, rfl⟩
  | i :: rest, s, yi, xi, s', h => by
    simp only [blitCells] at h
    cases hw : write_pixel s (s.x_pos + xi) (s.y_pos + yi) i with
    | error e =>
      rw [hw] at h
      exact Except.noConfusion h
    | ok s1 =>
      rw [hw] at h
      have h1 := write_pixel_ok_fields _ _ _ _ _ hw
      have h2 := blitCells_ok_fields rest s1 yi (xi + 1) s' h
      exact ⟨h2.1.trans h1.1, h2.2.1.trans h1.2.1, h2.2.2.1.trans h1.2.2.1,
        h2.2.2.2.trans h1.2.2.2⟩

theorem blitRows_ok_fields : ∀ (rows : List (List Nat)) (s : FrameBufferWriter) (yi : Nat)
    (s' : FrameBufferWriter), blitRows s yi rows = Except.ok s' →
    s'.x_pos = s.x_pos ∧ s'.y_pos = s.y_pos ∧ s'.info = s.info ∧
      s'.text_color = s.text_color
  | [], s, yi, s', h => by
    injection h with h3
    subst h3
    exact ⟨rfl, rfl, rfl, rfl⟩
  | row :: rest, s, yi, s', h => by
    simp only [blitRows] at h
    cases hw : blitCells s yi 0 row with
    | error e =>
      rw [hw] at h
      exact Except.noConfusion h
    | ok s1 =>
      rw [hw] at h
      have h1 := blitCells_ok_fields row s yi 0 s1 hw
      have h2 := blitRows_ok_fields rest s1 (yi + 1) s' h
      exact ⟨h2.1.trans h1.1, h2.2.1.trans h1.2.1, h2.2.2.1.trans h1.2.2.1,
        h2.2.2.2.trans h1.2.2.2⟩

/-- A successful `write_rendered_char` advances `x_pos` by the raster
width plus the letter spacing and changes neither `y_pos`, nor the
descriptor, nor the text color. -/
theorem write_rendered_char_ok_fields (s : FrameBufferWriter) (rc : Raster)
    (s' : FrameBufferWriter) (h : write_rendered_char s rc = Except.ok s') :
    s'.x_pos = s.x_pos + rc.width + LETTER_SPACING ∧ s'.y_pos = s.y_pos ∧
      s'.info = s.info ∧ s'.text_color = s.text_color := by
  unfold write_rendered_char at h
  cases hb : blitRows s 0 rc.raster with
  | error e =>
    rw [hb] at h
    exact Except.noConfusion h
  | ok s1 =>
    rw [hb] at h
    have h1 := blitRows_ok_fields rc.raster s 0 s1 hb
    injection h with h3
    subst h3
    exact ⟨by rw [h1.1], h1.2.1, h1.2.2.1, h1.2.2.2⟩

/-- C3: before rendering a character of the default glyph arm, if the
prospective y position (after the prospective newline `s1`) would reach
or exceed the surface height, the whole framebuffer is zero-filled and
the cursor resets to `(BORDER_PADDING, BORDER_PADDING)` — the glyph is
then rendered on the cleared surface (wrap-to-top, never scroll). -/
theorem write_char_overflow_clears (fc : FontCfg) (c : Char) (s s1 : FrameBufferWriter)
    (h1 : c ≠ '\n') (h2 : c ≠ 'c') (h3 : c ≠ '\t') (h4 : c ≠ '\r')
    (hs1 : s1 = if s.x_pos + fc.charRasterWidth ≥ s.info.width then newline fc s else s)
    (hy : s1.y_pos + fc.charRasterHeight + BORDER_PADDING ≥ s1.info.height) :
    write_char fc s c = write_rendered_char (clear s1) (fc.font c) ∧
    (clear s1).x_pos = BORDER_PADDING ∧ (clear s1).y_pos = BORDER_PADDING ∧
    ∀ b ∈ (clear s1).framebuffer, b = 0 := by
  refine ⟨?_, rfl, rfl, ?_⟩
  · simp only [write_char, if_neg h1, if_neg h2, if_neg h3, if_neg h4]
    rw [← hs1, if_pos hy]
  · intro b hb
    simp only [clear, List.mem_map] at hb
    obtain ⟨a, -, ha⟩ := hb
    exact ha.symm

/-- Witness for C3 at a concrete input. -/
theorem write_char_overflow_clears_witness :
    write_char fcEx sC3 'x' = write_rendered_char (clear sC3) (fcEx.font 'x') ∧
    (clear sC3).x_pos = BORDER_PADDING ∧ (clear sC3).y_pos = BORDER_PADDING := by
  have h := write_char_overflow_clears fcEx 'x' sC3 sC3 (by decide) (by decide) (by decide)
    (by decide) (by decide) (by decide)
  exact ⟨h.1, h.2.1, h.2.2.1⟩

/-- Default-arm step, no wrap and no clear: a successful `write_char`
advances `x_pos` by the raster width plus the letter spacing and leaves
`y_pos`, the descriptor and the text color unchanged. -/
theorem write_char_ok_step (fc : FontCfg) (c : Char) (s s' : FrameBufferWriter)
    (h1 : c ≠ '\n') (h2 : c ≠ 'c') (h3 : c ≠ '\t') (h4 : c ≠ '\r')
    (hx : s.x_pos + fc.charRasterWidth < s.info.width)
    (hy : s.y_pos + fc.charRasterHeight + BORDER_PADDING < s.info.height)
    (h : write_char fc s c = Except.ok s') :
    s'.x_pos = s.x_pos + (fc.font c).width + LETTER_SPACING ∧ s'.y_pos = s.y_pos ∧
      s'.info = s.info ∧ s'.text_color = s.text_color := by
  simp only [write_char, if_neg h1, if_neg h2, if_neg h3, if_neg h4] at h
  rw [if_neg (by omega : ¬s.x_pos + fc.charRasterWidth ≥ s.info.width)] at h
  rw [if_neg (by omega : ¬s.y_pos + fc.charRasterHeight + BORDER_PADDING ≥ s.info.height)] at h
  exact write_rendered_char_ok_fields s (fc.font c) s' h

/-- Default-arm step with horizontal wrap but no clear: a successful
`write_char` performs the newline first and renders from the border
padding on the next line. -/
theorem write_char_ok_wrap (fc : FontCfg) (c : Char) (s s' : FrameBufferWriter)
    (h1 : c ≠ '\n') (h2 : c ≠ 'c') (h3 : c ≠ '\t') (h4 : c ≠ '\r')
    (hx : s.x_pos + fc.charRasterWidth ≥ s.info.width)
    (hy : s.y_pos + fc.charRasterHeight + LINE_SPACING + fc.charRasterHeight +
      BORDER_PADDING < s.info.height)
    (h : write_char fc s c = Except.ok s') :
    s'.x_pos = BORDER_PADDING + (fc.font c).width + LETTER_SPACING ∧
      s'.y_pos = s.y_pos + fc.charRasterHeight + LINE_SPACING ∧
      s'.info = s.info ∧ s'.text_color = s.text_color := by
  simp only [write_char, if_neg h1, if_neg h2, if_neg h3, if_neg h4] at h
  rw [if_pos hx] at h
  rw [if_neg (by
    simp only [newline, carriage_return]
    omega : ¬(newline fc s).y_pos + fc.charRasterHeight + BORDER_PADDING ≥
      (newline fc s).info.height)] at h
  have hr := write_rendered_char_ok_fields (newline fc s) (fc.font c) s' h
  refine ⟨?_, ?_, hr.2.2.1, hr.2.2.2⟩
  · rw [hr.1]
    rfl
  · rw [hr.2.1]
    rfl

/-- A run of default-arm characters of the configured width, each step
staying strictly inside the surface: `x_pos` advances by exactly
`charRasterWidth + LETTER_SPACING` per character, and `y_pos`, the
descriptor and the text color never change. -/
theorem writeChars_run (fc : FontCfg) : ∀ (cs : List Char) (s t : FrameBufferWriter),
    (∀ c ∈ cs, (c ≠ '\n' ∧ c ≠ 'c' ∧ c ≠ '\t' ∧ c ≠ '\r') ∧
      (fc.font c).width = fc.charRasterWidth) →
    (∀ k, k < cs.length →
      s.x_pos + k * (fc.charRasterWidth + LETTER_SPACING) + fc.charRasterWidth <
        s.info.width) →
    s.y_pos + fc.charRasterHeight + BORDER_PADDING < s.info.height →
    writeChars fc s cs = Except.ok t →
    t.x_pos = s.x_pos + cs.length * (fc.charRasterWidth + LETTER_SPACING) ∧
      t.y_pos = s.y_pos ∧ t.info = s.info ∧ t.text_color = s.text_color
  | [], s, t, _, _, _, h => by
    injection h with h3
    subst h3
    exact ⟨by simp, rfl, rfl, rfl⟩
  | c :: cs, s, t, hchars, hx, hy, h => by
    simp only [writeChars] at h
    cases hw : write_char fc s c with
    | error e =>
      rw [hw] at h
      exact Except.noConfusion h
    | ok s1 =>
      rw [hw] at h
      obtain ⟨hcs, hfw⟩ := hchars c (List.mem_cons_self c cs)
      have hx0 : s.x_pos + fc.charRasterWidth < s.info.width := by
        have := hx 0 (by simp)
        simpa using this
      have hstep := write_char_ok_step fc c s s1 hcs.1 hcs.2.1 hcs.2.2.1 hcs.2.2.2 hx0 hy hw
      have ih := writeChars_run fc cs s1 t
        (fun c' hc' => hchars c' (List.mem_cons_of_mem _ hc'))
        (fun k hk => by
          have hk1 := hx (k + 1) (by simpa using Nat.succ_lt_succ hk)
          rw [Nat.succ_mul] at hk1
          rw [hstep.1, hfw, hstep.2.2.1]
          generalize k * (fc.charRasterWidth + LETTER_SPACING) = A at hk1 ⊢
          simp only [LETTER_SPACING] at hk1 ⊢
          omega)
        (by rw [hstep.2.1, hstep.2.2.1]; exact hy)
        h
      refine ⟨?_, ih.2.1.trans hstep.2.1, ih.2.2.1.trans hstep.2.2.1,
        ih.2.2.2.trans hstep.2.2.2⟩
      rw [ih.1, hstep.1, hfw, List.length_cons, Nat.succ_mul]
      generalize cs.length * (fc.charRasterWidth + LETTER_SPACING) = A
      simp only [LETTER_SPACING]
      omega

/-- C8 counterexample for the claim as stated: the letter `c` is a
printable character whose advance would keep x within the surface width,
yet writing it does not advance the cursor at all (it is intercepted by
the color-switch arm), so x does not advance by
`charRasterWidth + LETTER_SPACING`. -/
theorem write_char_c_no_advance :
    write_char fcEx sEx 'c' = Except.ok { sEx with text_color := ⟨0, 0, 255⟩ } ∧
    sEx.x_pos + fcEx.charRasterWidth < sEx.info.width ∧
    ({ sEx with text_color := (⟨0, 0, 255⟩ : Color3) } : FrameBufferWriter).x_pos ≠
      sEx.x_pos + (fcEx.charRasterWidth + LETTER_SPACING) :=
  ⟨rfl, by decide, by decide⟩

/-- C8 (amended): for every sequence of default-arm characters (not one
of the intercepted `'\n'`, `'c'`, `'\t'`, `'\r'`) of the configured
glyph width, as long as each prospective advance keeps x strictly inside
the surface width and the cursor is clear of the vertical-overflow
threshold, writing each prefix of the sequence advances x by exactly
`charRasterWidth + LETTER_SPACING` per character, strictly monotonically,
and y never changes. -/
theorem writeChars_x_advance (fc : FontCfg) (cs : List Char) (s : FrameBufferWriter)
    (hw : 0 < fc.charRasterWidth)
    (hchars : ∀ c ∈ cs, (c ≠ '\n' ∧ c ≠ 'c' ∧ c ≠ '\t' ∧ c ≠ '\r') ∧
      (fc.font c).width = fc.charRasterWidth)
    (hx : ∀ k, k < cs.length →
      s.x_pos + k * (fc.charRasterWidth + LETTER_SPACING) + fc.charRasterWidth <
        s.info.width)
    (hy : s.y_pos + fc.charRasterHeight + BORDER_PADDING < s.info.height) :
    (∀ k, k ≤ cs.length → ∀ t, writeChars fc s (cs.take k) = Except.ok t →
      t.x_pos = s.x_pos + k * (fc.charRasterWidth + LETTER_SPACING) ∧
        t.y_pos = s.y_pos) ∧
    (∀ k t u, k + 1 ≤ cs.length → writeChars fc s (cs.take k) = Except.ok t →
      writeChars fc s (cs.take (k + 1)) = Except.ok u → t.x_pos < u.x_pos) := by
  have main : ∀ k, k ≤ cs.length → ∀ t, writeChars fc s (cs.take k) = Except.ok t →
      t.x_pos = s.x_pos + k * (fc.charRasterWidth + LETTER_SPACING) ∧
        t.y_pos = s.y_pos := by
    intro k hk t ht
    have hr := writeChars_run fc (cs.take k) s t
      (fun c hc => hchars c (List.take_subset k cs hc))
      (fun j hj => hx j (by rw [List.length_take] at hj; omega))
      hy ht
    refine ⟨?_, hr.2.1⟩
    rw [hr.1, List.length_take, Nat.min_eq_left hk]
  refine ⟨main, ?_⟩
  intro k t u hk1 ht hu
  have hA1 := (main k (by omega) t ht).1
  have hA2 := (main (k + 1) hk1 u hu).1
  rw [hA1, hA2, Nat.succ_mul]
  generalize k * (fc.charRasterWidth + LETTER_SPACING) = A
  omega

/-- Witness for C8 (amended) at a concrete input. -/
theorem writeChars_x_advance_witness :
    tC8.x_pos = sEx.x_pos + 2 * (fcEx.charRasterWidth + LETTER_SPACING) ∧
      tC8.y_pos = sEx.y_pos :=
  (writeChars_x_advance fcEx ['a', 'b'] sEx (by decide) (by decide)
    (by decide) (by decide)).1 2 (by decide) tC8 rfl

/-- C7: if rendering a default-arm glyph at the current x would make
`x + charRasterWidth` reach or exceed the surface width, a newline is
performed first (x resets to the border padding, y advances by a line);
and a run of identical glyphs started at the border padding places
exactly `(width - 2 * BORDER_PADDING) / charRasterWidth` glyphs before
the line is full: each k up to that quotient lands at
`BORDER_PADDING + k * (charRasterWidth + LETTER_SPACING)` with y
unchanged, and at exactly the quotient the next glyph would wrap. -/
theorem write_char_wrap_count (fc : FontCfg) (c : Char)
    (h1 : c ≠ '\n') (h2 : c ≠ 'c') (h3 : c ≠ '\t') (h4 : c ≠ '\r')
    (hw : 0 < fc.charRasterWidth) (hfw : (fc.font c).width = fc.charRasterWidth) :
    (∀ s s', s.x_pos + fc.charRasterWidth ≥ s.info.width →
      s.y_pos + fc.charRasterHeight + LINE_SPACING + fc.charRasterHeight +
        BORDER_PADDING < s.info.height →
      write_char fc s c = Except.ok s' →
      s'.x_pos = BORDER_PADDING + fc.charRasterWidth + LETTER_SPACING ∧
        s'.y_pos = s.y_pos + fc.charRasterHeight + LINE_SPACING) ∧
    (∀ s, 2 ≤ s.info.width → s.x_pos = BORDER_PADDING →
      s.y_pos + fc.charRasterHeight + BORDER_PADDING < s.info.height →
      ∀ k, k ≤ (s.info.width - 2 * BORDER_PADDING) / fc.charRasterWidth →
      ∀ t, writeChars fc s (List.replicate k c) = Except.ok t →
        (t.x_pos = BORDER_PADDING + k * (fc.charRasterWidth + LETTER_SPACING) ∧
          t.y_pos = s.y_pos) ∧
        (k = (s.info.width - 2 * BORDER_PADDING) / fc.charRasterWidth →
          t.info.width ≤ t.x_pos + fc.charRasterWidth)) := by
  constructor
  · intro s s' hx hy hok
    have hr := write_char_ok_wrap fc c s s' h1 h2 h3 h4 hx hy hok
    exact ⟨by rw [hr.1, hfw], hr.2.1⟩
  · intro s hw2 hxp hy k hk t ht
    have hrun := writeChars_run fc (List.replicate k c) s t
      (fun c' hc' => by
        rw [List.eq_of_mem_replicate hc']
        exact ⟨⟨h1, h2, h3, h4⟩, hfw⟩)
      (fun j hj => by
        rw [List.length_replicate] at hj
        have hj1 : j + 1 ≤ (s.info.width - 2 * BORDER_PADDING) / fc.charRasterWidth := by
          omega
        have hmul := (Nat.le_div_iff_mul_le hw).mp hj1
        rw [Nat.succ_mul] at hmul
        rw [hxp]
        simp only [LETTER_SPACING, BORDER_PADDING, Nat.add_zero] at hmul ⊢
        generalize j * fc.charRasterWidth = A at hmul ⊢
        omega)
      hy ht
    constructor
    · exact ⟨by rw [hrun.1, List.length_replicate, hxp], hrun.2.1⟩
    · intro hkn
      rw [hrun.2.2.1, hrun.1, List.length_replicate, hxp, hkn]
      rw [show fc.charRasterWidth + LETTER_SPACING = fc.charRasterWidth from rfl]
      have hdiv := (Nat.div_lt_iff_lt_mul hw).mp
        (Nat.lt_succ_self ((s.info.width - 2 * BORDER_PADDING) / fc.charRasterWidth))
      rw [Nat.succ_mul ((s.info.width - 2 * BORDER_PADDING) / fc.charRasterWidth)
        fc.charRasterWidth] at hdiv
      have hpad : BORDER_PADDING = 1 := rfl
      generalize ((s.info.width - 2 * BORDER_PADDING) / fc.charRasterWidth) *
        fc.charRasterWidth = B at hdiv ⊢
      omega

/-- Witness for C7 at a concrete input: width 10, padding 1, glyph
width 1, so exactly `(10 - 2) / 1 = 8` glyphs fit on a line, and after
the eighth the next glyph would wrap. -/
theorem write_char_wrap_count_witness :
    ((tC7.x_pos = BORDER_PADDING + 8 * (fcEx.charRasterWidth + LETTER_SPACING) ∧
      tC7.y_pos = sEx.y_pos) ∧
    (8 = (sEx.info.width - 2 * BORDER_PADDING) / fcEx.charRasterWidth →
      tC7.info.width ≤ tC7.x_pos + fcEx.charRasterWidth)) :=
  (write_char_wrap_count fcEx 'a' (by decide) (by decide) (by decide) (by decide)
    (by decide) rfl).2 sEx (by decide) rfl (by decide) 8 (by decide) tC7 rfl

end Writer
